import Mathlib

/-!
# Verification of the GDBotDatabase core (`database.py`)

A shallow embedding of the repository's single source file `database.py`:
the checksum/obfuscation pipeline (`cyclic_xor`, `xor_encode`,
`generate_chk`, `comment_chk`, `User.gjp2`), the ban-text parser
(`parse_ban`), the proxy normalization (`fix_skid_proxy` plus the stdlib
`urlparse(...).hostname` it relies on), and the persistence layer
(`new_bot_account`, `get_bot`, `issue_ban`, `proxy_is_banned`,
`user_is_banned`, `user_and_proxy_are_banned`).

Bytes are modelled as `Nat` values below 256 in `List Nat`; Python `str`
is modelled by Lean `String`.  Python exceptions surface as the explicit
error type `PyErr` inside `Except`.  Stateful SQLAlchemy sessions become
explicit state passing over a `DB` record; `Session.merge` is embedded
with its documented semantics (reconciliation keyed by **primary key**:
an instance whose primary key is `None` is inserted as a new row), and
`commit` enforces the declared table constraints (`UNIQUE` on
`ban.host`; SQLite-style, so `NULL` hosts never conflict).
-/

set_option maxRecDepth 10000

namespace GDBot

/-! ## Byte and word utilities -/

/-- Truncation to a 32-bit word, `n % 2^32`. -/
def w32 (n : Nat) : Nat := n % 4294967296

/-- Left rotation of a 32-bit word by `b` bits. -/
def rotl (b n : Nat) : Nat := w32 (n <<< b) ||| (n >>> (32 - b))

/-- Big-endian byte rendering of `v` on exactly `n` bytes. -/
def beBytes : Nat → Nat → List Nat
  | 0, _ => []
  | n + 1, v => beBytes n (v / 256) ++ [v % 256]

/-- Big-endian 32-bit words from a byte list (groups of four; a trailing
incomplete group is dropped — never hit on padded SHA-1 input). -/
def beWords : List Nat → List Nat
  | a :: b :: c :: d :: rest =>
      (a * 16777216 + b * 65536 + c * 256 + d) :: beWords rest
  | _ => []

/-! ## SHA-1 (the `hashlib.sha1` the source calls), FIPS 180-1 -/

/-- SHA-1 round function `f_t`.  `2^32 - 1 - b` is the 32-bit complement
of `b` (for `b < 2^32` it equals `b XOR 0xFFFFFFFF`). -/
def sha1F (t b c d : Nat) : Nat :=
  if t < 20 then (b &&& c) ||| ((4294967295 - b) &&& d)
  else if t < 40 then b ^^^ c ^^^ d
  else if t < 60 then (b &&& c) ||| (b &&& d) ||| (c &&& d)
  else b ^^^ c ^^^ d

/-- SHA-1 round constant `K_t`. -/
def sha1K (t : Nat) : Nat :=
  if t < 20 then 0x5A827999
  else if t < 40 then 0x6ED9EBA1
  else if t < 60 then 0x8F1BBCDC
  else 0xCA62C1D6

/-- Extend the 16 chunk words to the 80-entry message schedule:
`W_t = S^1(W_(t-3) XOR W_(t-8) XOR W_(t-14) XOR W_(t-16))`. -/
def sha1Extend (ws : Array Nat) : Array Nat :=
  (List.range 64).foldl
    (fun a _ =>
      a.push (rotl 1 ((a.getD (a.size - 3) 0) ^^^ (a.getD (a.size - 8) 0) ^^^
        (a.getD (a.size - 14) 0) ^^^ (a.getD (a.size - 16) 0))))
    ws

/-- The 80 compression rounds on the state `(a, b, c, d, e)`. -/
def sha1Compress (ws : Array Nat) (h : Nat × Nat × Nat × Nat × Nat) :
    Nat × Nat × Nat × Nat × Nat :=
  (List.range 80).foldl
    (fun s t =>
      match s with
      | (a, b, c, d, e) =>
        (w32 (rotl 5 a + sha1F t b c d + e + sha1K t + ws.getD t 0),
         a, rotl 30 b, c, d))
    h

/-- Process one 64-byte chunk. -/
def sha1Chunk (h : Nat × Nat × Nat × Nat × Nat) (chunk : List Nat) :
    Nat × Nat × Nat × Nat × Nat :=
  match h, sha1Compress (sha1Extend (beWords chunk).toArray) h with
  | (h0, h1, h2, h3, h4), (a, b, c, d, e) =>
    (w32 (h0 + a), w32 (h1 + b), w32 (h2 + c), w32 (h3 + d), w32 (h4 + e))

/-- MD-strengthening padding: `0x80`, zeros to 56 mod 64, then the bit
length on eight big-endian bytes. -/
def sha1Pad (msg : List Nat) : List Nat :=
  msg ++ [0x80] ++ List.replicate ((119 - msg.length % 64) % 64) 0 ++
    beBytes 8 (msg.length * 8)

/-- Split into 64-byte chunks (structurally recursive on a fuel bound by
the list length, so that the definition reduces inside the kernel). -/
def chunk64Go : Nat → List Nat → List (List Nat)
  | _, [] => []
  | 0, _ => []
  | fuel + 1, x :: xs => ((x :: xs).take 64) :: chunk64Go fuel ((x :: xs).drop 64)

/-- Split into 64-byte chunks. -/
def chunk64 (l : List Nat) : List (List Nat) := chunk64Go l.length l

/-- The SHA-1 initial state. -/
def sha1Init : Nat × Nat × Nat × Nat × Nat :=
  (0x67452301, 0xEFCDAB89, 0x98BADCFE, 0x10325476, 0xC3D2E1F0)

/-- The 20-byte SHA-1 digest of a byte sequence. -/
def sha1Bytes (msg : List Nat) : List Nat :=
  match (chunk64 (sha1Pad msg)).foldl sha1Chunk sha1Init with
  | (h0, h1, h2, h3, h4) =>
    beBytes 4 h0 ++ beBytes 4 h1 ++ beBytes 4 h2 ++ beBytes 4 h3 ++ beBytes 4 h4

/-- Lowercase hex digit character for a value below 16 (`0-9a-f`). -/
def hexDigitChar (n : Nat) : Char :=
  Char.ofNat (if n < 10 then 48 + n else 87 + n)

/-- Lowercase hex rendering of a byte list, two digits per byte (what
Python's `hexdigest` produces). -/
def bytesToHex : List Nat → List Char
  | [] => []
  | b :: bs => hexDigitChar (b / 16 % 16) :: hexDigitChar (b % 16) :: bytesToHex bs

/-- `hashlib.sha1(msg).hexdigest()`. -/
def sha1HexDigest (msg : List Nat) : String :=
  String.mk (bytesToHex (sha1Bytes msg))

/-! ## URL-safe base64 (the `base64.urlsafe_b64encode` the source calls,
together with the matching `urlsafe_b64decode` used in the round-trip
properties of the spec) -/

/-- The URL-safe base64 alphabet: sextet value to ASCII code
(`A-Z a-z 0-9 - _`). -/
def b64EncChar (s : Nat) : Nat :=
  if s < 26 then 65 + s
  else if s < 52 then 71 + s
  else if s < 62 then s - 4
  else if s = 62 then 45
  else 95

/-- Inverse of the URL-safe base64 alphabet (garbage input maps to 0). -/
def b64DecChar (c : Nat) : Nat :=
  if c = 45 then 62
  else if c = 95 then 63
  else if 48 ≤ c ∧ c ≤ 57 then c + 4
  else if 65 ≤ c ∧ c ≤ 90 then c - 65
  else if 97 ≤ c ∧ c ≤ 122 then c - 71
  else 0

/-- URL-safe base64 encoding with `=` (ASCII 61) padding, bytes to ASCII
codes. -/
def b64encode : List Nat → List Nat
  | [] => []
  | [a] => [b64EncChar (a / 4), b64EncChar (a % 4 * 16), 61, 61]
  | [a, b] =>
      [b64EncChar (a / 4), b64EncChar (a % 4 * 16 + b / 16),
       b64EncChar (b % 16 * 4), 61]
  | a :: b :: c :: rest =>
      b64EncChar (a / 4) :: b64EncChar (a % 4 * 16 + b / 16) ::
      b64EncChar (b % 16 * 4 + c / 64) :: b64EncChar (c % 64) :: b64encode rest

/-- URL-safe base64 decoding (ASCII codes to bytes), honouring `=`
padding in the final quantum. -/
def b64decode : List Nat → List Nat
  | a :: b :: c :: d :: rest =>
      if c = 61 then [b64DecChar a * 4 + b64DecChar b / 16]
      else if d = 61 then
        [b64DecChar a * 4 + b64DecChar b / 16,
         b64DecChar b % 16 * 16 + b64DecChar c / 4]
      else
        (b64DecChar a * 4 + b64DecChar b / 16) ::
        (b64DecChar b % 16 * 16 + b64DecChar c / 4) ::
        (b64DecChar c % 4 * 64 + b64DecChar d) :: b64decode rest
  | _ => []

/-! ## UTF-8 encoding (Python's `str.encode("utf-8")`) -/

/-- UTF-8 bytes of one code point. -/
def utf8EncodeChar (c : Char) : List Nat :=
  let n := c.toNat
  if n < 128 then [n]
  else if n < 2048 then [192 + n / 64, 128 + n % 64]
  else if n < 65536 then [224 + n / 4096, 128 + n / 64 % 64, 128 + n % 64]
  else [240 + n / 262144, 128 + n / 4096 % 64, 128 + n / 64 % 64, 128 + n % 64]

/-- `s.encode("utf-8")` on a Python string. -/
def utf8Encode (s : String) : List Nat :=
  s.data.flatMap utf8EncodeChar

/-! ## The checksum pipeline of `database.py` -/

/-- `cyclic_xor(data, key)` from the source:
`bytes(d ^ k for d, k in zip(data, itertools.cycle(key)))`.
For a non-empty key, `zip(data, cycle(key))` pairs `data[i]` with
`key[i mod len(key)]` for every `i < len(data)`; for an empty key,
`itertools.cycle(b"")` is an exhausted iterator, so the `zip` yields
nothing and the result is the empty byte string (no exception). -/
def cyclic_xor (data key : List Nat) : List Nat :=
  if key.isEmpty then []
  else List.zipWith (fun d k => d ^^^ k) data
    ((List.range data.length).map (fun i => key.getD (i % key.length) 0))

/-- `xor_encode(data, key)`: `base64.urlsafe_b64encode(cyclic_xor(data, key))`. -/
def xor_encode (data key : List Nat) : List Nat :=
  b64encode (cyclic_xor data key)

/-- `generate_chk(value, key, salt)`:
`xor_encode(hashlib.sha1(value + salt).hexdigest().encode(), key)`. -/
def generate_chk (value key salt : List Nat) : List Nat :=
  xor_encode (utf8Encode (sha1HexDigest (value ++ salt))) key

/-- `comment_chk(username, content, id, percentage, comment_type)`:
the f-string `f"{username}{content}{id}{percentage}{comment_type}"`
encoded as UTF-8, hashed with key `b"29481"` and salt `b"xPT6iUrtws0J"`.
The numeric parameters are rendered in decimal, as Python's `str` does. -/
def comment_chk (username content : String) (id percentage comment_type : Int) :
    List Nat :=
  generate_chk
    (utf8Encode (username ++ content ++ toString id ++ toString percentage ++
      toString comment_type))
    (utf8Encode "29481") (utf8Encode "xPT6iUrtws0J")

/-! ## The `User` model and its methods -/

/-- A row of the `user` table (`User(IDModel, table=True)`): primary key
`id`, plus `name`, `password` (bytes) and `accountID`. -/
structure UserRow where
  id : Nat
  name : String
  password : List Nat
  accountID : Int
deriving DecidableEq, Repr

/-- The fixed salt of `User.gjp2`, `b"mI29fmAnxgTs"`. -/
def gjp2Salt : List Nat := utf8Encode "mI29fmAnxgTs"

/-- `User.gjp2`: `sha1(self.password + b"mI29fmAnxgTs").hexdigest()`. -/
def gjp2 (password : List Nat) : String :=
  sha1HexDigest (password ++ gjp2Salt)

/-- Python runtime values an attribute lookup on a `User` instance can
produce (only the shapes the embedded methods need). -/
inductive PyVal where
  | vInt (i : Int)
  | vStr (s : String)
  | vBytes (b : List Nat)
deriving DecidableEq, Repr

/-- Python exceptions raised by the embedded code. -/
inductive PyErr where
  | attributeError
  | valueError
  | integrityError
  | multipleResultsFound
deriving DecidableEq, Repr

/-- Attribute lookup on a `User` instance: the model declares exactly the
fields `id`, `name`, `password`, `accountID` (plus the relationship
`bans` and the properties `gjp2` / `isabstract`, which never produce one
of the scalar shapes above and are not needed by the embedded methods).
Any other attribute — in particular `username` — does not exist, and
Python raises `AttributeError`; here the lookup returns `none`. -/
def UserRow.getattr (u : UserRow) (a : String) : Option PyVal :=
  if a = "id" then some (.vInt u.id)
  else if a = "name" then some (.vStr u.name)
  else if a = "password" then some (.vBytes u.password)
  else if a = "accountID" then some (.vInt u.accountID)
  else if a = "gjp2" then some (.vStr (gjp2 u.password))
  else none

/-- `User.level_comment_chk(self, b64_content, levelID)`:
`comment_chk(self.username, b64_content, id=levelID, comment_type=1)`.
The body reads `self.username`, so the attribute lookup runs first; when
it fails the method raises `AttributeError` before `comment_chk` is
reached. -/
def level_comment_chk (u : UserRow) (b64_content : String) (levelID : Int) :
    Except PyErr (List Nat) :=
  match u.getattr "username" with
  | some (.vStr username) => .ok (comment_chk username b64_content levelID 0 1)
  | _ => .error .attributeError

/-- `User.profile_comment_chk(self, b64_content)`:
`comment_chk(self.username, b64_content, id=0, comment_type=0)`; again
the `self.username` lookup runs first. -/
def profile_comment_chk (u : UserRow) (b64_content : String) :
    Except PyErr (List Nat) :=
  match u.getattr "username" with
  | some (.vStr username) => .ok (comment_chk username b64_content 0 0 0)
  | _ => .error .attributeError

/-! ## String helpers (the `str` methods the source uses) -/

/-- Split at the first occurrence of the character `c`, returning the
part before and the part after; `none` when `c` does not occur (the
building block of Python's `split(sep, maxsplit)`). -/
def splitChar (c : Char) : List Char → Option (List Char × List Char)
  | [] => none
  | x :: xs =>
      if x = c then some ([], xs)
      else match splitChar c xs with
        | some (pre, post) => some (x :: pre, post)
        | none => none

/-- Split at the first occurrence of the substring `sep`, returning the
parts before and after it. -/
def splitSub (sep : List Char) : List Char → Option (List Char × List Char)
  | [] => if sep.isEmpty then some ([], []) else none
  | x :: xs =>
      if sep.isPrefixOf (x :: xs) then some ([], (x :: xs).drop sep.length)
      else match splitSub sep xs with
        | some (pre, post) => some (x :: pre, post)
        | none => none

/-- The characters Python's `str.rstrip()` strips by default — exactly
the code points where `str.isspace()` is true: tab through carriage
return (U+0009-U+000D), the separator controls U+001C-U+001F, space,
NEL (U+0085), NBSP (U+00A0), Ogham space mark (U+1680), the Unicode
spaces U+2000-U+200A, line and paragraph separators (U+2028, U+2029),
narrow NBSP (U+202F), medium mathematical space (U+205F) and the
ideographic space (U+3000). -/
def isPySpace (c : Char) : Bool :=
  let n := c.toNat
  (9 ≤ n && n ≤ 13) || (28 ≤ n && n ≤ 31) || n = 32 || n = 133 ||
  n = 160 || n = 5760 || (8192 ≤ n && n ≤ 8202) || n = 8232 ||
  n = 8233 || n = 8239 || n = 8287 || n = 12288

/-- `s.rstrip()`: remove trailing whitespace. -/
def pyRstrip (s : List Char) : List Char :=
  (s.reverse.dropWhile isPySpace).reverse

/-- `s.rfind(c)`: index of the last occurrence, `none` where Python
returns `-1`. -/
def rfindChar (c : Char) (s : List Char) : Option Nat :=
  match s.reverse.findIdx? (· = c) with
  | some j => some (s.length - 1 - j)
  | none => none

/-- `s.endswith(c)` for a one-character suffix. -/
def endsWithChar (c : Char) (s : List Char) : Bool :=
  s.getLast? = some c

/-! ## `parse_ban` -/

/-- `raw_ban_str.split("_", 2)` unpacked into three names: the text
before the first `_`, the text between the first and the second `_`, and
the whole remainder (which may itself contain `_`).  `none` models the
`ValueError` Python raises when the split yields fewer than three
parts. -/
def pySplit2 (s : List Char) : Option (List Char × List Char × List Char) :=
  match splitChar '_' s with
  | none => none
  | some (a, rest) =>
    match splitChar '_' rest with
    | none => none
    | some (b, c) => some (a, b, c)

/-- `parse_ban(raw_ban_str)` from the source: unpack the 2-bounded split
(propagating `ValueError` on malformed input), `rstrip` the remainder,
and when it ends with `)` and contains a `(`, return the slice strictly
between `rfind("(")` and `rfind(")")`; otherwise fall off the end
(Python's implicit `None`). -/
def parse_ban (raw_ban_str : String) : Except PyErr (Option String) :=
  match pySplit2 raw_ban_str.data with
  | none => .error .valueError
  | some (_temp, _length, rest) =>
    let reason := pyRstrip rest
    if endsWithChar ')' reason && (rfindChar '(' reason).isSome then
      let i := (rfindChar '(' reason).getD 0
      let j := (rfindChar ')' reason).getD 0
      .ok (some (String.mk ((reason.drop (i + 1)).take (j - (i + 1)))))
    else .ok none

/-! ## Proxy normalization and host extraction -/

/-- `fix_skid_proxy(ip)`: prepend `all://` when the address carries no
`://` already. -/
def fix_skid_proxy (ip : String) : String :=
  if (splitSub "://".data ip.data).isSome then ip else "all://" ++ ip

/-- `urlparse(url).hostname` of the Python standard library, modelled
for the inputs this program builds (`scheme://netloc[/...]`): the
netloc is the text between the `://` and the next `/`, `?` or `#`; the
hostname drops the userinfo up to the last `@`, drops a `:port` suffix,
and is lowercased; an empty host is `None`.  (Bracketed IPv6 literals
are not modelled.) -/
def hostname (url : String) : Option String :=
  match splitSub "://".data url.data with
  | none => none
  | some (_scheme, rest) =>
    let netloc := rest.takeWhile (fun c => !(c = '/' || c = '?' || c = '#'))
    let hostport := (netloc.reverse.takeWhile (· ≠ '@')).reverse
    let host := hostport.takeWhile (· ≠ ':')
    if host.isEmpty then none else some (String.mk (host.map Char.toLower))

/-! ## The database -/

/-- A row of the `ban` table: primary key `id`, the (SQL-`UNIQUE`, but
nullable — `urlparse(...).hostname` can be `None`) `host`, the raw ban
text, the parsed `real_user`, and the owning user's key. -/
structure BanRow where
  id : Nat
  host : Option String
  raw_ban_str : String
  real_user : Option String
  user_id : Option Nat
deriving DecidableEq, Repr

/-- The persistent state: the two tables plus their rowid sequences. -/
structure DB where
  users : List UserRow
  bans : List BanRow
  nextUserId : Nat
  nextBanId : Nat
deriving DecidableEq, Repr

/-- The freshly created store. -/
def dbEmpty : DB := ⟨[], [], 1, 1⟩

/-- `Result.one_or_none()`: `none` on no row, the row when unique, and
`MultipleResultsFound` on two or more. -/
def one_or_none {α : Type} : List α → Except PyErr (Option α)
  | [] => .ok none
  | [x] => .ok (some x)
  | _ => .error .multipleResultsFound

/-- `Database.new_bot_account(username, password, accountID)`:
`s.merge(User(name=..., password=password.encode("utf-8"), accountID=...))`
then `commit`.  The merged instance has primary key `None`, so `merge`
creates a new pending row and the flush INSERTs it; the model declares
no unique constraint on `user.name`, so the insert always succeeds.
Returns the new state and the merged row (the function's return value). -/
def new_bot_account (db : DB) (username password : String) (accountID : Int) :
    DB × UserRow :=
  let row : UserRow :=
    ⟨db.nextUserId, username, utf8Encode password, accountID⟩
  (⟨db.users ++ [row], db.bans, db.nextUserId + 1, db.nextBanId⟩, row)

/-- `Database.get_bot(username)`:
`select(User).where(User.name == username)` then `one_or_none()`. -/
def get_bot (db : DB) (username : String) : Except PyErr (Option UserRow) :=
  one_or_none (db.users.filter (fun u => u.name = username))

/-- `Database.proxy_is_banned(proxy)`: normalize with `fix_skid_proxy`,
extract the hostname, `select(Ban).where(Ban.host == host)` and
`one_or_none()` (SQLAlchemy renders `== None` as `IS NULL`, which the
`Option` equality mirrors). -/
def proxy_is_banned (db : DB) (proxy : String) : Except PyErr (Option BanRow) :=
  let host := hostname (fix_skid_proxy proxy)
  one_or_none (db.bans.filter (fun b => b.host = host))

/-- `Database.issue_ban(ban_str, caused_by, proxy)`: build
`Ban(host=urlparse(fix_skid_proxy(proxy)).hostname, raw_ban_str=ban_str,
real_user=parse_ban(ban_str), user=caused_by)` — evaluating `parse_ban`
first, so its `ValueError` propagates before anything is written — then
`s.merge(...)` and `commit`.  The instance's primary key is `None`, so
`merge` INSERTs a new row; the commit then enforces `UNIQUE(ban.host)`
(SQLite semantics: `NULL` hosts never conflict), raising
`IntegrityError` when the host is already present. -/
def issue_ban (db : DB) (ban_str : String) (caused_by : Option UserRow)
    (proxy : String) : Except PyErr DB :=
  match parse_ban ban_str with
  | .error e => .error e
  | .ok real_user =>
    let host := hostname (fix_skid_proxy proxy)
    let row : BanRow :=
      ⟨db.nextBanId, host, ban_str, real_user, caused_by.map (·.id)⟩
    if host.isSome && db.bans.any (fun b => b.host = host) then
      .error .integrityError
    else
      .ok ⟨db.users, db.bans ++ [row], db.nextUserId, db.nextBanId + 1⟩

/-- `Database.user_is_banned(username)`: look the user up with
`one_or_none()`, then evaluate `if user.bans:` — when no user matched,
`user` is Python's `None` and the attribute access raises
`AttributeError`; when a user matched, `user.bans` is the list of bans
owned by the user (the relationship rows whose `user_id` is the user's
key) and a non-empty list is truthy.  Otherwise run
`select(Ban).where(Ban.real_user == username)` with `one_or_none()`. -/
def user_is_banned (db : DB) (username : String) : Except PyErr Bool :=
  match one_or_none (db.users.filter (fun u => u.name = username)) with
  | .error e => .error e
  | .ok none => .error .attributeError
  | .ok (some u) =>
    if !(db.bans.filter (fun b => b.user_id = some u.id)).isEmpty then .ok true
    else
      match one_or_none (db.bans.filter (fun b => b.real_user = some username)) with
      | .error e => .error e
      | .ok (some _) => .ok true
      | .ok none => .ok false

/-- `Database.user_and_proxy_are_banned(username, proxy)`:
`if await proxy_is_banned(proxy): return True` (a `Ban` instance is
truthy, `None` falsy), then `if await user_is_banned(username): return
True`, else `False`. -/
def user_and_proxy_are_banned (db : DB) (username proxy : String) :
    Except PyErr Bool :=
  match proxy_is_banned db proxy with
  | .error e => .error e
  | .ok ban =>
    if ban.isSome then .ok true
    else
      match user_is_banned db username with
      | .error e => .error e
      | .ok b => if b then .ok true else .ok false

/-! ## Definitions following the spec's words (for refinement claims) -/

/-- Modelled from the spec: `checkSafety(name, egressAddress)` ("is safe
to use") — the spec's safe-polarity entry point over the source's
banned-polarity `user_and_proxy_are_banned`; safe is the boolean
negation of banned. -/
def checkSafety (db : DB) (name egressAddress : String) : Except PyErr Bool :=
  (user_and_proxy_are_banned db name egressAddress).map (fun b => !b)

/-- Modelled from the spec: the attributed-user rule of
`extractAttributedUser` — "if `reason` ends with `)` and contains a
matching `(` before it, the substring strictly between the last `(` and
the last `)` is returned; otherwise absent". -/
def attributedUser (reason : List Char) : Option String :=
  if endsWithChar ')' reason then
    match rfindChar '(' reason, rfindChar ')' reason with
    | some i, some j => some (String.mk ((reason.drop (i + 1)).take (j - (i + 1))))
    | _, _ => none
  else none

/-! ## Lemmas about `cyclic_xor` -/

/-- With an empty key the `zip` is empty, so `cyclic_xor` returns `b""`. -/
lemma cyclic_xor_nil_key (d : List Nat) : cyclic_xor d [] = [] := rfl

/-- XORing twice entrywise with the same list is the identity. -/
lemma zipWith_xor_cancel :
    ∀ (d c : List Nat), d.length ≤ c.length →
      List.zipWith (fun a b => a ^^^ b) (List.zipWith (fun a b => a ^^^ b) d c) c = d
  | [], _, _ => by simp
  | _ :: _, [], h => by simp at h
  | x :: xs, y :: ys, h => by
      simp only [List.zipWith_cons_cons, List.cons.injEq]
      exact ⟨Nat.xor_cancel_right y x,
        zipWith_xor_cancel xs ys (by simpa using h)⟩

/-- The cycled-key list used by `cyclic_xor`. -/
lemma cyclic_xor_eq_zipWith (d k : List Nat) (hk : ¬ k.isEmpty) :
    cyclic_xor d k = List.zipWith (fun a b => a ^^^ b) d
      ((List.range d.length).map (fun i => k.getD (i % k.length) 0)) := by
  simp [cyclic_xor, hk]

/-- The length of `cyclic_xor` output equals the data length for a
non-empty key. -/
lemma cyclic_xor_length (d k : List Nat) (hk : k ≠ []) :
    (cyclic_xor d k).length = d.length := by
  rw [cyclic_xor_eq_zipWith d k (by simpa using hk)]
  simp

/-- Applying `cyclic_xor` twice with the same non-empty key recovers the
data. -/
lemma cyclic_xor_involution (d k : List Nat) (hk : k ≠ []) :
    cyclic_xor (cyclic_xor d k) k = d := by
  have hke : ¬ k.isEmpty := by simpa using hk
  rw [cyclic_xor_eq_zipWith (cyclic_xor d k) k hke, cyclic_xor_length d k hk,
    cyclic_xor_eq_zipWith d k hke]
  exact zipWith_xor_cancel d _ (by simp)

/-- Every entry of the cycled-key list is an entry of the key. -/
lemma mem_cycled_key {k : List Nat} {n : Nat} (hk : k ≠ []) :
    ∀ x ∈ (List.range n).map (fun i => k.getD (i % k.length) 0), x ∈ k := by
  intro x hx
  rcases List.mem_map.mp hx with ⟨i, _, rfl⟩
  have hlen : 0 < k.length := List.length_pos.mpr hk
  have hmod : i % k.length < k.length := Nat.mod_lt _ hlen
  rw [List.getD_eq_getElem k 0 hmod]
  exact List.getElem_mem hmod

/-- Entrywise XOR of byte lists yields bytes. -/
lemma zipWith_xor_bytes :
    ∀ (d c : List Nat), (∀ a ∈ d, a < 256) → (∀ a ∈ c, a < 256) →
      ∀ x ∈ List.zipWith (fun a b => a ^^^ b) d c, x < 256
  | [], _, _, _ => by simp
  | _ :: _, [], _, _ => by simp
  | a :: d, b :: c, hd, hc => by
      intro x hx
      simp only [List.zipWith_cons_cons, List.mem_cons] at hx
      rcases hx with rfl | hx
      · have := Nat.xor_lt_two_pow (n := 8)
          (by simpa using hd a (by simp)) (by simpa using hc b (by simp))
        simpa using this
      · exact zipWith_xor_bytes d c (fun y hy => hd y (by simp [hy]))
          (fun y hy => hc y (by simp [hy])) x hx

/-- `cyclic_xor` maps bytes to bytes. -/
lemma cyclic_xor_bytes {d k : List Nat} (hd : ∀ a ∈ d, a < 256)
    (hk256 : ∀ a ∈ k, a < 256) (hk : k ≠ []) :
    ∀ a ∈ cyclic_xor d k, a < 256 := by
  rw [cyclic_xor_eq_zipWith d k (by simpa using hk)]
  exact zipWith_xor_bytes d _ hd
    (fun y hy => hk256 y (mem_cycled_key hk y hy))

/-! ## Lemmas about base64 -/

/-- Decoding inverts the alphabet on sextets. -/
lemma b64DecChar_b64EncChar : ∀ s, s < 64 → b64DecChar (b64EncChar s) = s := by
  decide

/-- No alphabet character is the padding byte `=` (61). -/
lemma b64EncChar_ne_61 : ∀ s, s < 64 → b64EncChar s ≠ 61 := by
  decide

/-- URL-safe base64 decoding inverts encoding on byte lists. -/
lemma b64decode_b64encode :
    ∀ (x : List Nat), (∀ a ∈ x, a < 256) → b64decode (b64encode x) = x
  | [], _ => rfl
  | [a], h => by
      have ha : a < 256 := h a (by simp)
      have h1 : a / 4 < 64 := by omega
      have h2 : a % 4 * 16 < 64 := by omega
      simp only [b64encode, b64decode, eq_self_iff_true, if_true,
        b64DecChar_b64EncChar _ h1, b64DecChar_b64EncChar _ h2,
        List.cons.injEq, and_true]
      generalize hx : a % 4 * 16 = x
      omega
  | [a, b], h => by
      have ha : a < 256 := h a (by simp)
      have hb : b < 256 := h b (by simp)
      have h1 : a / 4 < 64 := by omega
      have h2 : a % 4 * 16 + b / 16 < 64 := by omega
      have h3 : b % 16 * 4 < 64 := by omega
      simp only [b64encode, b64decode, eq_self_iff_true, if_true,
        b64EncChar_ne_61 _ h3, if_false,
        b64DecChar_b64EncChar _ h1, b64DecChar_b64EncChar _ h2,
        b64DecChar_b64EncChar _ h3, List.cons.injEq, and_true]
      generalize hx : a % 4 * 16 + b / 16 = x
      generalize hy : b % 16 * 4 = y
      omega
  | a :: b :: c :: rest, h => by
      have ha : a < 256 := h a (by simp)
      have hb : b < 256 := h b (by simp)
      have hc : c < 256 := h c (by simp)
      have h1 : a / 4 < 64 := by omega
      have h2 : a % 4 * 16 + b / 16 < 64 := by omega
      have h3 : b % 16 * 4 + c / 64 < 64 := by omega
      have h4 : c % 64 < 64 := by omega
      have hrest : ∀ y ∈ rest, y < 256 := fun y hy => h y (by simp [hy])
      have ih := b64decode_b64encode rest hrest
      match rest, ih with
      | [], _ =>
          simp only [b64encode, b64decode,
            b64EncChar_ne_61 _ h3, b64EncChar_ne_61 _ h4, if_false,
            b64DecChar_b64EncChar _ h1, b64DecChar_b64EncChar _ h2,
            b64DecChar_b64EncChar _ h3, b64DecChar_b64EncChar _ h4,
            List.cons.injEq, and_true]
          generalize hx : a % 4 * 16 + b / 16 = x
          generalize hy : b % 16 * 4 + c / 64 = y
          omega
      | r1 :: rest', ih =>
          simp only [b64encode] at ih ⊢
          simp only [b64decode,
            b64EncChar_ne_61 _ h3, b64EncChar_ne_61 _ h4, if_false,
            b64DecChar_b64EncChar _ h1, b64DecChar_b64EncChar _ h2,
            b64DecChar_b64EncChar _ h3, b64DecChar_b64EncChar _ h4,
            List.cons.injEq] at ih ⊢
          refine ⟨?_, ?_, ?_, ih⟩
          · generalize hx : a % 4 * 16 + b / 16 = x
            omega
          · generalize hx : a % 4 * 16 + b / 16 = x
            generalize hy : b % 16 * 4 + c / 64 = y
            omega
          · generalize hy : b % 16 * 4 + c / 64 = y
            omega

/-! ## Lemmas about the digest rendering -/

/-- `beBytes` always renders exactly `n` bytes. -/
lemma beBytes_length : ∀ (n v : Nat), (beBytes n v).length = n
  | 0, _ => rfl
  | n + 1, v => by simp [beBytes, beBytes_length n]

/-- A SHA-1 digest is 20 bytes. -/
lemma sha1Bytes_length (msg : List Nat) : (sha1Bytes msg).length = 20 := by
  unfold sha1Bytes
  rcases hfold : (chunk64 (sha1Pad msg)).foldl sha1Chunk sha1Init with
    ⟨h0, h1, h2, h3, h4⟩
  simp [beBytes_length]

/-- Hex rendering doubles the length. -/
lemma bytesToHex_length :
    ∀ (bs : List Nat), (bytesToHex bs).length = 2 * bs.length
  | [] => rfl
  | b :: bs => by
      simp only [bytesToHex, List.length_cons, bytesToHex_length bs]
      omega

/-- Lowercase hexadecimal characters: `0-9` and `a-f`. -/
def isLowerHexChar (c : Char) : Bool :=
  (48 ≤ c.toNat && c.toNat ≤ 57) || (97 ≤ c.toNat && c.toNat ≤ 102)

/-- Every hex digit the renderer emits is a lowercase hex character. -/
lemma isLowerHexChar_hexDigitChar :
    ∀ k, k < 16 → isLowerHexChar (hexDigitChar k) = true := by
  decide

/-- The whole hex rendering consists of lowercase hex characters. -/
lemma bytesToHex_all_lowerHex :
    ∀ (bs : List Nat), (bytesToHex bs).all isLowerHexChar = true
  | [] => rfl
  | b :: bs => by
      simp only [bytesToHex, List.all_cons, Bool.and_eq_true]
      exact ⟨isLowerHexChar_hexDigitChar _ (Nat.mod_lt _ (by norm_num)),
        isLowerHexChar_hexDigitChar _ (Nat.mod_lt _ (by norm_num)),
        bytesToHex_all_lowerHex bs⟩

/-- Sanity anchor for the SHA-1 embedding: the standard test vector
`SHA1("abc") = a9993e364706816aba3e25717850c26c9cd0d89d`. -/
lemma sha1HexDigest_abc :
    sha1HexDigest [97, 98, 99] = "a9993e364706816aba3e25717850c26c9cd0d89d" := by
  decide

/-! ## Claim theorems: the checksum engine -/

/-- C6: for every byte sequence `d` and every non-empty key `k`,
`cyclicXor(cyclicXor(d, k), k) = d`. -/
theorem cyclic_xor_roundtrip (d k : List Nat) (hk : k ≠ []) :
    cyclic_xor (cyclic_xor d k) k = d :=
  cyclic_xor_involution d k hk

/-- Witness for C6 at `d = [1, 2, 3]`, `k = [5, 6]`. -/
theorem cyclic_xor_roundtrip_witness :
    cyclic_xor (cyclic_xor [1, 2, 3] [5, 6]) [5, 6] = [1, 2, 3] :=
  cyclic_xor_roundtrip [1, 2, 3] [5, 6] (by decide)

/-- C7 counterexample: with the empty key the round-trip loses the data —
`xorEncode([1], b"")` base64-decodes to `b""`, and `cyclicXor` with the
empty key leaves it empty, so the original byte is not recovered. -/
theorem xor_encode_empty_key_no_roundtrip :
    cyclic_xor (b64decode (xor_encode [1] [])) [] ≠ [1] := by
  decide

/-- C7 (amended: the key must be non-empty): decoding `xorEncode(d, k)`
from URL-safe base64 and applying `cyclicXor` with the same key recovers
`d`, for byte sequences `d` and non-empty byte keys `k`. -/
theorem xor_encode_decode_roundtrip (d k : List Nat)
    (hd : ∀ a ∈ d, a < 256) (hk256 : ∀ a ∈ k, a < 256) (hk : k ≠ []) :
    cyclic_xor (b64decode (xor_encode d k)) k = d := by
  rw [xor_encode, b64decode_b64encode _ (cyclic_xor_bytes hd hk256 hk)]
  exact cyclic_xor_involution d k hk

/-- Witness for C7 at `d = [10, 200, 30]`, `k = [7, 9]`. -/
theorem xor_encode_decode_roundtrip_witness :
    cyclic_xor (b64decode (xor_encode [10, 200, 30] [7, 9])) [7, 9] =
      [10, 200, 30] :=
  xor_encode_decode_roundtrip [10, 200, 30] [7, 9]
    (by decide) (by decide) (by decide)

/-- C9 counterexample: `cyclic_xor` does not fail on an empty key — the
call returns normally, producing the empty byte string (here at the
concrete input `d = [1, 2, 3]`). -/
theorem cyclic_xor_empty_key_returns_value :
    cyclic_xor [1, 2, 3] [] = ([] : List Nat) := by
  decide

/-- C9 (amended): with an empty key `cyclic_xor` raises nothing; it
silently returns the empty byte string for every `d`, because
`zip(data, itertools.cycle(b""))` yields no pairs. -/
theorem cyclic_xor_empty_key_yields_empty (d : List Nat) :
    cyclic_xor d [] = [] :=
  cyclic_xor_nil_key d

/-- C5 counterexample: the fixed constant appended by `credentialDigest`
(`User.gjp2`) is `b"mI29fmAnxgTs"`, which has 12 bytes, not 14. -/
theorem gjp2_salt_is_12_not_14 :
    gjp2Salt.length = 12 ∧ ¬ gjp2Salt.length = 14 := by
  decide

/-- C5 (amended: the constant is 12 bytes): for every byte sequence `s`,
`credentialDigest(s)` (`User.gjp2` with `password = s`) is, byte for
byte, the lowercase hexadecimal SHA-1 digest of `s` concatenated with
the fixed 12-byte constant `b"mI29fmAnxgTs"`: it equals
`sha1HexDigest (s ++ gjp2Salt)`, is 40 characters long, and consists
only of lowercase hex characters. -/
theorem gjp2_digest_spec (s : List Nat) :
    gjp2 s = sha1HexDigest (s ++ gjp2Salt) ∧
    gjp2Salt = [109, 73, 50, 57, 102, 109, 65, 110, 120, 103, 84, 115] ∧
    gjp2Salt.length = 12 ∧
    (gjp2 s).length = 40 ∧
    (gjp2 s).data.all isLowerHexChar = true := by
  refine ⟨rfl, by decide, by decide, ?_, ?_⟩
  · show (String.mk (bytesToHex (sha1Bytes (s ++ gjp2Salt)))).length = 40
    show (bytesToHex (sha1Bytes (s ++ gjp2Salt))).length = 40
    rw [bytesToHex_length, sha1Bytes_length]
  · show (bytesToHex (sha1Bytes (s ++ gjp2Salt))).all isLowerHexChar = true
    exact bytesToHex_all_lowerHex _

/-- C10: both comment-checksum methods read `self.username`, an
attribute the `User` model never defines (its field is `name`), so for
every user record, content string and level id they raise
`AttributeError` instead of producing a checksum. -/
theorem comment_chk_methods_raise_attribute_error
    (u : UserRow) (c : String) (l : Int) :
    level_comment_chk u c l = .error .attributeError ∧
    profile_comment_chk u c = .error .attributeError :=
  ⟨rfl, rfl⟩

/-! ## Lemmas about `parse_ban` -/

/-- A character absent from the list makes `splitChar` fail. -/
lemma splitChar_eq_none {c : Char} :
    ∀ (s : List Char), c ∉ s → splitChar c s = none
  | [], _ => rfl
  | x :: xs, h => by
      have hx : ¬ x = c := fun he => h (by simp [he])
      have hrec : splitChar c xs = none :=
        splitChar_eq_none xs (fun hm => h (List.mem_cons_of_mem _ hm))
      simp [splitChar, hx, hrec]

/-- A successful `splitChar` decomposes the list at the first occurrence. -/
lemma splitChar_some {c : Char} :
    ∀ (s : List Char) {a rest : List Char}, splitChar c s = some (a, rest) →
      s = a ++ c :: rest ∧ c ∉ a
  | [], _, _, h => by simp [splitChar] at h
  | x :: xs, a, rest, h => by
      by_cases hx : x = c
      · rw [splitChar, if_pos hx] at h
        simp only [Option.some.injEq, Prod.mk.injEq] at h
        obtain ⟨rfl, rfl⟩ := h
        simp [hx]
      · rw [splitChar, if_neg hx] at h
        cases h2 : splitChar c xs with
        | none => rw [h2] at h; simp at h
        | some p =>
          obtain ⟨a', rest'⟩ := p
          rw [h2] at h
          simp only [Option.some.injEq, Prod.mk.injEq] at h
          obtain ⟨rfl, rfl⟩ := h
          obtain ⟨hs, hna⟩ := splitChar_some xs h2
          refine ⟨by simp [hs], ?_⟩
          intro hm
          rcases List.mem_cons.mp hm with he | hm2
          · exact hx he.symm
          · exact hna hm2

/-- `splitChar` finds a marked occurrence after a clean prefix. -/
lemma splitChar_append (c : Char) :
    ∀ (t rest : List Char), c ∉ t →
      splitChar c (t ++ c :: rest) = some (t, rest)
  | [], rest, _ => by simp [splitChar]
  | x :: t, rest, h => by
      have hx : ¬ x = c := fun he => h (by simp [he])
      have hrec : splitChar c (t ++ c :: rest) = some (t, rest) :=
        splitChar_append c t rest (fun hm => h (List.mem_cons_of_mem _ hm))
      simp [splitChar, hx, hrec]

/-- When a list ends with `c`, `rfind` locates its last position. -/
lemma rfindChar_of_endsWith {c : Char} {s : List Char}
    (h : endsWithChar c s = true) : rfindChar c s = some (s.length - 1) := by
  have hlast : s.getLast? = some c := by simpa [endsWithChar] using h
  have hrev : s.reverse.head? = some c := by
    rw [List.head?_reverse]; exact hlast
  cases hs : s.reverse with
  | nil => rw [hs] at hrev; simp at hrev
  | cons x xs =>
      rw [hs] at hrev
      simp only [List.head?_cons, Option.some.injEq] at hrev
      unfold rfindChar
      rw [hs]
      simp [List.findIdx?_cons, hrev]

/-- When the 2-bounded split succeeds, `parse_ban` returns exactly the
spec's attributed-user extraction applied to the stripped remainder. -/
lemma parse_ban_of_split {raw : String} {t l r : List Char}
    (h : pySplit2 raw.data = some (t, l, r)) :
    parse_ban raw = .ok (attributedUser (pyRstrip r)) := by
  unfold parse_ban
  rw [h]
  by_cases hend : endsWithChar ')' (pyRstrip r)
  · have hj := rfindChar_of_endsWith (c := ')') (s := pyRstrip r) hend
    cases hpar : rfindChar '(' (pyRstrip r) with
    | none => simp [attributedUser, hend, hpar]
    | some i => simp [attributedUser, hend, hpar, hj]
  · simp [attributedUser, hend]

/-! ## Claim theorem: `parse_ban` (C8) -/

/-- C8: `parse_ban` splits on the first two `_` separators only, keeping
the remainder whole; on any input with fewer than two `_` it propagates
the unpacking `ValueError`; otherwise it strips trailing whitespace from
the remainder and returns the spec's attributed-user extraction (the
substring strictly between the last `(` and the last `)` when the
stripped reason ends with `)` and contains a `(`, absent otherwise). -/
theorem parse_ban_spec (raw : String) :
    (raw.data.count '_' < 2 → parse_ban raw = .error .valueError) ∧
    (∀ t l r : List Char,
      raw.data = t ++ '_' :: (l ++ '_' :: r) → '_' ∉ t → '_' ∉ l →
      parse_ban raw = .ok (attributedUser (pyRstrip r))) := by
  constructor
  · intro hcount
    unfold parse_ban
    cases h1 : splitChar '_' raw.data with
    | none => simp [pySplit2, h1]
    | some p =>
      obtain ⟨a, rest⟩ := p
      obtain ⟨heq, hnot⟩ := splitChar_some _ h1
      have ha0 : a.count '_' = 0 := List.count_eq_zero.mpr hnot
      have hc : rest.count '_' = 0 := by
        rw [heq, List.count_append, List.count_cons_self] at hcount
        omega
      have h2 : splitChar '_' rest = none :=
        splitChar_eq_none rest (List.count_eq_zero.mp hc)
      simp [pySplit2, h1, h2]
  · intro t l r heq hnt hnl
    apply parse_ban_of_split (t := t) (l := l) (r := r)
    simp [pySplit2, heq, splitChar_append '_' t (l ++ '_' :: r) hnt,
      splitChar_append '_' l r hnl]

/-- Witness for C8: the spec's own examples — one separator raises the
format error; the well-formed example extracts `JohnDoe`; a trailing
file-separator control U+001C counts as whitespace and is stripped
before the parenthesis check, as in Python. -/
theorem parse_ban_spec_witness :
    parse_ban "onlyonesep_reason" = .error .valueError ∧
    parse_ban "1_2_Cheating detected (JohnDoe)" = .ok (some "JohnDoe") ∧
    parse_ban "a_b_(u)\x1C" = .ok (some "u") := by
  refine ⟨(parse_ban_spec "onlyonesep_reason").1 (by decide), ?_, ?_⟩
  · have h := (parse_ban_spec "1_2_Cheating detected (JohnDoe)").2
      "1".data "2".data "Cheating detected (JohnDoe)".data
      (by decide) (by decide) (by decide)
    rw [h]
    rfl
  · have h := (parse_ban_spec "a_b_(u)\x1C").2
      "a".data "b".data "(u)\x1C".data
      (by decide) (by decide) (by decide)
    rw [h]
    rfl

/-! ## Claim theorems: the persistence layer -/

/-- C1 (code evaluated at the failing input): two `recordBan` calls for
the same egress address do not upsert.  The first call leaves one Ban
row holding the first text; the second call INSERTs (merge has no
primary key to reconcile on) and the `UNIQUE(ban.host)` constraint makes
the commit fail with `IntegrityError`, so the store never holds the
second text. -/
theorem issue_ban_duplicate_host_errors :
    (issue_ban dbEmpty "a_b_r1" none "1.2.3.4").map
      (fun d => d.bans.map (fun b => (b.host, b.raw_ban_str))) =
      .ok [(some "1.2.3.4", "a_b_r1")] ∧
    (issue_ban dbEmpty "a_b_r1" none "1.2.3.4").bind
      (fun d => issue_ban d "a_b_r2" none "1.2.3.4") =
      .error .integrityError :=
  ⟨rfl, rfl⟩

/-- C2 (code evaluated at the failing input): after
`recordBan("x_y_reason (alice)", None, "9.9.9.9")` the store holds a Ban
attributed to `alice`, yet `user_is_banned("alice")` raises
`AttributeError` (the `User` lookup returns `None` and the code
evaluates `None.bans`) instead of returning `True`. -/
theorem user_is_banned_crashes_on_unregistered :
    (issue_ban dbEmpty "x_y_reason (alice)" none "9.9.9.9").map
      (fun d => d.bans.map (fun b => b.real_user)) = .ok [some "alice"] ∧
    (issue_ban dbEmpty "x_y_reason (alice)" none "9.9.9.9").bind
      (fun d => user_is_banned d "alice") = .error .attributeError :=
  ⟨rfl, rfl⟩

/-- C4 (code evaluated at the failing input): `new_bot_account` merges an
instance whose primary key is `None`, so every call INSERTs; two calls
with the same name leave two rows named `bob` (the model declares no
unique constraint on `user.name`), and `get_bot("bob")` then raises
`MultipleResultsFound` — there is no idempotent upsert. -/
theorem new_bot_account_inserts_duplicate_rows :
    ((new_bot_account ((new_bot_account dbEmpty "bob" "s1" 5).1)
        "bob" "s2" 6).1.users.map (fun u => (u.name, u.accountID))) =
      [("bob", 5), ("bob", 6)] ∧
    get_bot ((new_bot_account ((new_bot_account dbEmpty "bob" "s1" 5).1)
        "bob" "s2" 6).1) "bob" = .error .multipleResultsFound :=
  ⟨rfl, rfl⟩

/-- The sound part of the safety-gate composition: the host lookup runs
first and short-circuits — whenever the host is banned the result is
"banned" (`checkSafety` false) with no condition at all on the account
check, even in states where `user_is_banned` raises; when the host is
clean and the account check returns a boolean, the result is exactly
that boolean (`checkSafety` its negation).  When the host is clean and
the account check raises, the composition propagates the error — see
the claim theorem below. -/
lemma user_and_proxy_composition (db : DB) (n a : String) :
    (∀ b, proxy_is_banned db a = .ok (some b) →
      user_and_proxy_are_banned db n a = .ok true ∧
      checkSafety db n a = .ok false) ∧
    (proxy_is_banned db a = .ok none → ∀ u : Bool,
      user_is_banned db n = .ok u →
      user_and_proxy_are_banned db n a = .ok u ∧
      checkSafety db n a = .ok (!u)) := by
  constructor
  · intro b hb
    constructor
    · simp [user_and_proxy_are_banned, hb]
    · simp [checkSafety, user_and_proxy_are_banned, hb, Except.map]
  · intro h u hu
    constructor
    · cases u <;> simp [user_and_proxy_are_banned, h, hu]
    · cases u <;> simp [checkSafety, user_and_proxy_are_banned, h, hu, Except.map]

/-- A concrete store for the C3 claim theorem: one registered account
`bob` without bans, one ban against host `1.2.3.4` with no attributed
user. -/
def safetyDemoDB : DB :=
  ⟨[⟨1, "bob", [115, 49], 5⟩], [⟨1, some "1.2.3.4", "a_b_c", none, none⟩], 2, 2⟩

/-- C3 (code evaluated at the failing input): the claim's "returns true
otherwise" leg fails.  With a clean host and an unregistered username
(`carol` on the empty store) neither sub-check is true, yet
`checkSafety` raises the propagated `AttributeError` from
`user_is_banned` (the C2 bug reached through the composition) instead
of returning safe.  The remaining legs of the claim do hold on the
code, evaluated here at `safetyDemoDB`: a banned host yields
"banned"/unsafe even though `alice` is unregistered and the account
check would raise — the host check runs first and short-circuits — and
with a clean host the registered `bob`'s boolean account result is
returned (safe). -/
theorem checkSafety_crashes_on_clean_host_unregistered_user :
    checkSafety dbEmpty "carol" "5.6.7.8" = .error .attributeError ∧
    user_and_proxy_are_banned dbEmpty "carol" "5.6.7.8" =
      .error .attributeError ∧
    user_and_proxy_are_banned safetyDemoDB "alice" "1.2.3.4" = .ok true ∧
    checkSafety safetyDemoDB "alice" "1.2.3.4" = .ok false ∧
    user_and_proxy_are_banned safetyDemoDB "bob" "5.6.7.8" = .ok false ∧
    checkSafety safetyDemoDB "bob" "5.6.7.8" = .ok true :=
  ⟨rfl, rfl, rfl, rfl, rfl, rfl⟩

end GDBot
